import Mathlib

/-!
A shallow embedding of btcd's `config.go` (configuration loading, validation
and dial/lookup strategy construction) together with theorems checking the
natural-language specification against it.

Modelling conventions:
* Go strings are modelled as Lean `String` where only equality/emptiness
  matters, and as `List Char` where byte-level structure matters
  (address parsing, suffix dispatch, debug-level parsing).
* Go function values stored in the configuration (`net.Dial`,
  `proxy.Dial`, tor lookup closures, error closures) are modelled as
  first-order data (`DialFn`, `LookupFn`) recording which function was
  installed and which captured values it closed over.
* Go `nil` function fields are modelled with `Option`: `none` is an
  unset strategy.
* Fallible steps return `Except`; the distinct error messages of the
  source become distinct constructors/fields of error types.
-/

namespace BtcdConfig

/-! ### Dial / lookup strategies (config.go lines 579-635)

`DialFn` models the possible values of the `cfg.dial` / `cfg.oniondial`
fields: the system dialer `net.Dial`, a SOCKS5 proxy dialer capturing the
proxy address and credentials, or the always-failing closure installed
when tor is disabled.  `LookupFn` likewise models `cfg.lookup` /
`cfg.onionlookup`: the system resolver `net.LookupIP`, the tor-routed
`torLookupIP` closure capturing the proxy address it routes through, or
the always-failing closure. -/

inductive DialFn where
  | netDial : DialFn
  | socksProxyDial (addr username password : String) : DialFn
  | failDial (msg : String) : DialFn
deriving DecidableEq

inductive LookupFn where
  | netLookupIP : LookupFn
  | torLookup (proxyAddr : String) : LookupFn
  | failLookup (msg : String) : LookupFn
deriving DecidableEq

/-- The error message installed by the `--noonion` closures
(config.go lines 630 and 633). -/
def torDisabledMsg : String := "tor has been disabled"

/-- The four strategy fields of the `config` struct
(`dial`, `lookup`, `oniondial`, `onionlookup`); `none` models a Go `nil`
function field, i.e. a strategy that was never set. -/
structure DialLookupConfig where
  dial : Option DialFn
  lookup : Option LookupFn
  oniondial : Option DialFn
  onionlookup : Option LookupFn
deriving DecidableEq

/-- Embedding of the strategy-construction block of `loadConfig`
(config.go lines 585-635).  The sequence of Go assignments is modelled by
`let`-rebinding: `cfg.dial`/`cfg.lookup` start as the system functions,
are overwritten when `--proxy` is set (the lookup only when `--noonion`
is not set), the onion pair is either the dedicated onion-proxy pair or a
copy of the normal pair, and `--noonion` finally overwrites the onion
pair with the failing closures. -/
def setupStrategies (proxy proxyUser proxyPass onionProxy onionProxyUser onionProxyPass : String)
    (noOnion : Bool) : DialLookupConfig :=
  let dial : Option DialFn := some DialFn.netDial
  let lookup : Option LookupFn := some LookupFn.netLookupIP
  let dial := if proxy ≠ "" then some (DialFn.socksProxyDial proxy proxyUser proxyPass) else dial
  let lookup := if proxy ≠ "" then
      (if !noOnion then some (LookupFn.torLookup proxy) else lookup) else lookup
  let oniondial := if onionProxy ≠ "" then
      some (DialFn.socksProxyDial onionProxy onionProxyUser onionProxyPass) else dial
  let onionlookup := if onionProxy ≠ "" then
      some (LookupFn.torLookup onionProxy) else lookup
  let oniondial := if noOnion then some (DialFn.failDial torDisabledMsg) else oniondial
  let onionlookup := if noOnion then some (LookupFn.failLookup torDisabledMsg) else onionlookup
  ⟨dial, lookup, oniondial, onionlookup⟩

/-- Spec-side definition, following the words of claim C1 / spec §4.8:
the normal dial is the proxy dial when a proxy is set, the system dial
otherwise. -/
def specNormalDial (proxy proxyUser proxyPass : String) : DialFn :=
  if proxy ≠ "" then DialFn.socksProxyDial proxy proxyUser proxyPass else DialFn.netDial

/-- Spec-side definition, following the words of claim C1 / spec §4.8:
the normal lookup is Tor-routed via the proxy when a proxy is set and
`noOnion` is false, and the system DNS otherwise (in particular whenever
`noOnion` is true). -/
def specNormalLookup (proxy : String) (noOnion : Bool) : LookupFn :=
  if proxy ≠ "" ∧ noOnion = false then LookupFn.torLookup proxy else LookupFn.netLookupIP

/-- Spec-side definition, following the words of claim C1 / spec §4.8:
the onion dial is always-erroring whenever `noOnion` is true, the
dedicated onion-proxy dial when an onion proxy is set, and otherwise
equal to the normal dial. -/
def specOnionDial (proxy proxyUser proxyPass onionProxy onionProxyUser onionProxyPass : String)
    (noOnion : Bool) : DialFn :=
  if noOnion then DialFn.failDial torDisabledMsg
  else if onionProxy ≠ "" then DialFn.socksProxyDial onionProxy onionProxyUser onionProxyPass
  else specNormalDial proxy proxyUser proxyPass

/-- Spec-side definition, following the words of claim C1 / spec §4.8:
the onion lookup is always-erroring whenever `noOnion` is true, the
Tor-routed lookup via the onion proxy when one is set, and otherwise
equal to the normal lookup. -/
def specOnionLookup (proxy onionProxy : String) (noOnion : Bool) : LookupFn :=
  if noOnion then LookupFn.failLookup torDisabledMsg
  else if onionProxy ≠ "" then LookupFn.torLookup onionProxy
  else specNormalLookup proxy noOnion

/-- The full strategy table prescribed by the spec: all four strategies,
each set (`some`). -/
def specStrategies (proxy proxyUser proxyPass onionProxy onionProxyUser onionProxyPass : String)
    (noOnion : Bool) : DialLookupConfig :=
  ⟨some (specNormalDial proxy proxyUser proxyPass),
   some (specNormalLookup proxy noOnion),
   some (specOnionDial proxy proxyUser proxyPass onionProxy onionProxyUser onionProxyPass noOnion),
   some (specOnionLookup proxy onionProxy noOnion)⟩

/-! ### Debug level parsing (config.go lines 133-215)

Debug-level strings are modelled as `List Char` so that Go's
`strings.Split` and `strings.Contains` can be translated faithfully.
The `subsystemLoggers` map consulted at config.go lines 157 and 199 is
declared in the logging file outside this source; it enters the model as
a parameter carrying the list of its keys (the subsystem names). -/

/-- The six log level names recognized by `validLogLevel`
(config.go lines 134-150). -/
def logLevelNames : List (List Char) :=
  ["trace".toList, "debug".toList, "info".toList,
   "warn".toList, "error".toList, "critical".toList]

/-- Embedding of `validLogLevel` (config.go lines 134-150). -/
def validLogLevel (logLevel : List Char) : Bool :=
  logLevelNames.contains logLevel

/-- Translation of Go's `strings.Split(s, sep)` for a one-byte
separator: `splitOnChar sep s` never returns `[]`, and splitting the
empty string yields `[[]]`. -/
def splitOnChar (sep : Char) : List Char → List (List Char)
  | [] => [[]]
  | x :: xs =>
    match splitOnChar sep xs with
    | [] => [[x]]
    | y :: ys => if x = sep then [] :: y :: ys else (x :: y) :: ys

/-- Bytewise lexicographic order on strings, as used by Go's
`sort.Strings` (config.go line 162). -/
def lexLe : List Char → List Char → Bool
  | [], _ => true
  | _ :: _, [] => false
  | a :: as, b :: bs => if a < b then true else if b < a then false else lexLe as bs

/-- `lexLe` as a relation, for the sortedness statements. -/
def LexLeP (a b : List Char) : Prop := lexLe a b = true

instance : DecidableRel LexLeP := fun a b => by
  unfold LexLeP
  infer_instance

/-- Embedding of `supportedSubsystems` (config.go lines 154-164): the
subsystem names sorted for stable display.  (`sort.Strings` is modelled
by an insertion sort under the same order; the sortedness and
permutation theorems below justify the substitution.) -/
def supportedSubsystems (subsystemNames : List (List Char)) : List (List Char) :=
  List.insertionSort LexLeP subsystemNames

/-- The three error shapes of `parseAndSetDebugLevels`: an invalid level
(config.go lines 175-177 and 207-209), a pair without `'='`
(lines 189-192), and an unrecognized subsystem, which carries the sorted
supported-subsystem list interpolated into the message (lines 200-203). -/
inductive DebugLevelError where
  | invalidLevel (lvl : List Char) : DebugLevelError
  | invalidPair (pair : List Char) : DebugLevelError
  | invalidSubsystem (subsys : List Char) (supported : List (List Char)) : DebugLevelError
deriving DecidableEq

/-- The loop over `strings.Split(debugLevel, ",")` of config.go
lines 187-212: each pair must contain `'='`; `fields[0]` (the text
before the first `'='`) must be a known subsystem and `fields[1]` (the
text between the first and second `'='`) a valid level.  The
`setLogLevel` side effect carries no information for validation, so the
loop returns `Unit`. -/
def parsePairs (subsystemNames : List (List Char)) :
    List (List Char) → Except DebugLevelError Unit
  | [] => Except.ok ()
  | pair :: rest =>
    if pair.contains '=' = false then
      Except.error (DebugLevelError.invalidPair pair)
    else
      let fields := splitOnChar '=' pair
      let subsysID := fields.getD 0 []
      let logLevel := fields.getD 1 []
      if subsystemNames.contains subsysID = false then
        Except.error (DebugLevelError.invalidSubsystem subsysID
          (supportedSubsystems subsystemNames))
      else if validLogLevel logLevel = false then
        Except.error (DebugLevelError.invalidLevel logLevel)
      else parsePairs subsystemNames rest

/-- Embedding of `parseAndSetDebugLevels` (config.go lines 169-215):
a string without `','` and without `'='` is a whole-line level and must
be a recognized level name; anything else is split on `','` and
validated pair by pair. -/
def parseAndSetDebugLevels (subsystemNames : List (List Char)) (debugLevel : List Char) :
    Except DebugLevelError Unit :=
  if debugLevel.contains ',' = false ∧ debugLevel.contains '=' = false then
    if validLogLevel debugLevel = false then
      Except.error (DebugLevelError.invalidLevel debugLevel)
    else Except.ok ()
  else parsePairs subsystemNames (splitOnChar ',' debugLevel)

/-- The acceptance condition of one pair of the loop, as a single
boolean: contains `'='`, first field a known subsystem, second field a
valid level. -/
def pairAccepted (subsystemNames : List (List Char)) (pair : List Char) : Bool :=
  pair.contains '=' &&
  subsystemNames.contains ((splitOnChar '=' pair).getD 0 []) &&
  validLogLevel ((splitOnChar '=' pair).getD 1 [])

/-- Spec-side definition, following the words of claim C8 / spec §4.6:
the string is a single recognized level name, or a comma-separated list
of `subsystem=level` pairs — each piece literally of the form
`sub ++ "=" ++ lvl` with `sub` a recognized subsystem and `lvl` a
recognized level. -/
def specDebugLevelWellFormed (subsystemNames : List (List Char)) (s : List Char) : Bool :=
  validLogLevel s ||
  (splitOnChar ',' s).all (fun pair =>
    subsystemNames.any (fun sub => logLevelNames.any (fun lvl => pair == sub ++ '=' :: lvl)))

/-! ### Address normalization (config.go lines 228-260)

`normalizeAddress` decides "already has a port" by whether
`net.SplitHostPort` succeeds, so the Go standard library's
`SplitHostPort` and `JoinHostPort` (as of the Go releases contemporary
with this source, 2014) are translated here over `List Char`; the
caller only tests success, so the distinct error messages of
`SplitHostPort` all collapse to `none`. -/

/-- Go's `last(s, b)`: index of the last occurrence of a byte. -/
def lastIndexOf (c : Char) : List Char → Option Nat
  | [] => none
  | x :: xs =>
    match lastIndexOf c xs with
    | some i => some (i + 1)
    | none => if x = c then some 0 else none

/-- Go's `byteIndex(s, b)`: index of the first occurrence of a byte. -/
def firstIndexOf (c : Char) : List Char → Option Nat
  | [] => none
  | x :: xs => if x = c then some 0 else (firstIndexOf c xs).map (· + 1)

/-- Translation of Go's `net.SplitHostPort`: the port starts after the
last colon; a leading `'['` must be matched by a first `']'` directly
followed by that colon, enclosing the host; without brackets the host
may contain no colon; stray `'['`/`']'` are rejected.  All error returns
collapse to `none`. -/
def splitHostPort (hp : List Char) : Option (List Char × List Char) :=
  match lastIndexOf ':' hp with
  | none => none
  | some i =>
    if hp.head? = some '[' then
      match firstIndexOf ']' hp with
      | none => none
      | some e =>
        if e + 1 = hp.length then none
        else if e + 1 = i then
          if (hp.drop 1).contains '[' then none
          else if (hp.drop (e + 1)).contains ']' then none
          else some ((hp.drop 1).take (e - 1), hp.drop (i + 1))
        else none
    else
      let host := hp.take i
      if host.contains ':' then none
      else if hp.contains '[' then none
      else if hp.contains ']' then none
      else some (host, hp.drop (i + 1))

/-- Translation of Go's `net.JoinHostPort`: brackets the host when it
contains a colon. -/
def joinHostPort (host port : List Char) : List Char :=
  if host.contains ':' then '[' :: (host ++ ']' :: ':' :: port) else host ++ ':' :: port

/-- Embedding of `normalizeAddress` (config.go lines 244-250): appends
the default port when `SplitHostPort` fails, returns the address
unchanged when it succeeds. -/
def normalizeAddress (addr defaultPort : List Char) : List Char :=
  match splitHostPort addr with
  | none => joinHostPort addr defaultPort
  | some _ => addr

/-- Helper for `removeDuplicateAddresses`: the accumulating loop over
the input with the set of already-seen addresses (the Go `seen` map,
modelled as the list of its keys). -/
def rmdupAux (seen : List (List Char)) : List (List Char) → List (List Char)
  | [] => []
  | a :: rest =>
    if a ∈ seen then rmdupAux seen rest else a :: rmdupAux (a :: seen) rest

/-- Embedding of `removeDuplicateAddresses` (config.go lines 230-240):
keeps the first occurrence of each address, in order. -/
def removeDuplicateAddresses (addrs : List (List Char)) : List (List Char) :=
  rmdupAux [] addrs

/-- Embedding of `normalizeAddresses` (config.go lines 254-260):
normalizes every entry with the default port, then removes duplicates. -/
def normalizeAddresses (addrs : List (List Char)) (defaultPort : List Char) :
    List (List Char) :=
  removeDuplicateAddresses (addrs.map (fun a => normalizeAddress a defaultPort))

/-- Spec-side definition, following the words of claim C4 / spec §4.7:
first-seen deduplication — keep each element's first occurrence and
erase its later duplicates, preserving order. -/
def keepFirst : List (List Char) → List (List Char)
  | [] => []
  | a :: l => a :: keepFirst (l.filter (fun x => x ≠ a))
termination_by l => l.length
decreasing_by
  simp only [List.length_cons]
  exact Nat.lt_succ_of_le (List.length_filter_le _ _)

/-! ### RPC implicit disable (config.go lines 505-508) -/

/-- Embedding of the step `if cfg.RPCUser == "" || cfg.RPCPass == "" {
cfg.DisableRPC = true }`: returns the value of `DisableRPC` after the
step, given the merged credentials and the previously configured flag. -/
def applyRPCDisable (rpcUser rpcPass : String) (disableRPC : Bool) : Bool :=
  if rpcUser = "" ∨ rpcPass = "" then true else disableRPC

/-! ### Network selection (config.go lines 380-410) -/

inductive Network where
  | mainNet : Network
  | testNet3 : Network
  | regressionNet : Network
  | simNet : Network
deriving DecidableEq

/-- Outcome of the network-selection block: the bound network profile and
the `DisableDNSSeed` flag after the block (forced on for simnet). -/
structure NetSelection where
  network : Network
  disableDNSSeed : Bool
deriving DecidableEq

/-- The error text of config.go lines 392-393. -/
def multiNetErrorMsg : String :=
  "loadConfig: The testnet, regtest, and simnet params can't be used together -- choose one of the three"

/-- The `numNets` count of config.go lines 381-390. -/
def numNets (testNet3 regressionTest simNet : Bool) : Nat :=
  (if testNet3 then 1 else 0) + (if regressionTest then 1 else 0) + (if simNet then 1 else 0)

/-- Embedding of the network-selection block of `loadConfig`
(config.go lines 380-410): counting the selected networks, rejecting more
than one, then the `switch` binding `activeNetParams` (its prior
main-network binding is declared outside config.go; the spec's "zero
implies the main network" fixes it as the default case).  Selecting the
simulation network also forces DNS seeding off. -/
def selectNetwork (testNet3 regressionTest simNet disableDNSSeed : Bool) :
    Except String NetSelection :=
  if numNets testNet3 regressionTest simNet > 1 then Except.error multiNetErrorMsg
  else if testNet3 then Except.ok ⟨Network.testNet3, disableDNSSeed⟩
  else if regressionTest then Except.ok ⟨Network.regressionNet, disableDNSSeed⟩
  else if simNet then Except.ok ⟨Network.simNet, true⟩
  else Except.ok ⟨Network.mainNet, disableDNSSeed⟩

/-! ### Block size validation and clamping (config.go lines 524-539) -/

/-- `blockMaxSizeMin` (config.go line 42). -/
def blockMaxSizeMin : Nat := 1000

/-- Modelled from the spec: `btcwire.MaxBlockPayload`, the
protocol-mandated payload limit referenced by config.go line 43, lives in
the btcwire library outside this repository's source; the bitcoin wire
protocol limit is 1,000,000 bytes. -/
def maxBlockPayload : Nat := 1000000

/-- `blockMaxSizeMax = btcwire.MaxBlockPayload - 1000` (config.go line 43). -/
def blockMaxSizeMax : Nat := maxBlockPayload - 1000

/-- Modelled from the spec: the helper `minUint32` called at config.go
lines 538-539 is declared elsewhere in the repository; per the spec it
clips a value down to a bound, i.e. takes the minimum. -/
def minUint32 (a b : Nat) : Nat := if a < b then a else b

/-- The data carried by the block-max-size error of config.go
lines 528-531: both bounds and the offending parsed value. -/
structure BlockSizeError where
  minBound : Nat
  maxBound : Nat
  parsed : Nat
deriving DecidableEq

/-- Embedding of the block-size validation and clamping of `loadConfig`
(config.go lines 524-539): reject `BlockMaxSize` outside the bounds,
otherwise clamp `BlockMinSize` and `BlockPrioritySize` down to it.
Returns the resulting `(BlockMinSize, BlockPrioritySize, BlockMaxSize)`
triple. -/
def limitBlockSizes (blockMinSize blockPrioritySize blockMaxSize : Nat) :
    Except BlockSizeError (Nat × Nat × Nat) :=
  if blockMaxSize < blockMaxSizeMin ∨ blockMaxSize > blockMaxSizeMax then
    Except.error ⟨blockMaxSizeMin, blockMaxSizeMax, blockMaxSize⟩
  else
    Except.ok (minUint32 blockMinSize blockMaxSize,
               minUint32 blockPrioritySize blockMaxSize,
               blockMaxSize)

/-! ### Config-file pass: skip condition, peer discard, error policy
(config.go lines 349-378 and 637-642) -/

/-- The portion of the tolerant pre-pass that the file pass consults:
the `-C` (long form `configfile`) flag (a `none` flag leaves the seeded default in
place, exactly as go-flags leaves an unset field untouched) and the two
mode flags tested at config.go line 352. -/
structure PreConfig where
  configFileFlag : Option String
  regressionTest : Bool
  simNet : Bool

/-- The value of `preCfg.ConfigFile` after the pre-pass: the flag's value
when supplied, the seeded default path otherwise. -/
def preConfigFile (defaultFile : String) (pre : PreConfig) : String :=
  pre.configFileFlag.getD defaultFile

/-- The condition of config.go lines 352-353 under which the
configuration file is parsed at all. -/
def readsConfigFile (defaultFile : String) (pre : PreConfig) : Bool :=
  !(pre.regressionTest || pre.simNet) || preConfigFile defaultFile pre ≠ defaultFile

/-- The two classes of failure `ParseFile` can report, as distinguished
by the type assertion at config.go line 357: an `*os.PathError`
(file missing, permission denied, ...) or any other (parse) error. -/
inductive ConfigFileError where
  | pathError (msg : String) : ConfigFileError
  | parseError (msg : String) : ConfigFileError
deriving DecidableEq

/-- The type test `err.(*os.PathError)` of config.go line 357. -/
def ConfigFileError.isPathError : ConfigFileError → Bool
  | ConfigFileError.pathError _ => true
  | ConfigFileError.parseError _ => false

/-- Embedding of the file-loading phase of `loadConfig` (config.go
lines 349-364): the file system's answer is an overlay function over the
whole configuration (go-flags mutates the seeded record field-by-field)
or an error.  When the skip condition holds the file is never read, so
the configuration passes through unchanged and no warning is recorded;
otherwise a path error is recorded as the deferred non-fatal warning
(config.go line 362, emitted at lines 640-642) while any other error is
fatal (config.go lines 357-361).  Returns the configuration after the
phase together with the deferred warning, or the fatal error. -/
def configFilePhase {α : Type} (defaultFile : String) (pre : PreConfig)
    (fileResult : Except ConfigFileError (α → α)) (cfg : α) :
    Except ConfigFileError (α × Option ConfigFileError) :=
  if readsConfigFile defaultFile pre then
    match fileResult with
    | Except.ok overlay => Except.ok (overlay cfg, none)
    | Except.error e =>
      if e.isPathError then Except.ok (cfg, some e) else Except.error e
  else
    Except.ok (cfg, none)

/-! ### Onion-suffix dispatch (config.go lines 647-671)

Addresses and hostnames are modelled as `List Char` so that the
byte-level suffix test of `strings.HasSuffix` can be translated
faithfully. -/

/-- The onion suffix `".onion"` tested at config.go lines 653 and 667. -/
def onionSuffix : List Char := ".onion".toList

/-- Translation of Go's `strings.HasSuffix(s, suffix)`:
`len(s) >= len(suffix) && s[len(s)-len(suffix):] == suffix`. -/
def goHasSuffix (s suf : List Char) : Bool :=
  if suf.length ≤ s.length then s.drop (s.length - suf.length) == suf else false

/-- Embedding of `btcdDial` (config.go lines 652-657): dispatches to the
configuration's onion dial strategy when the address ends in `".onion"`,
and to the normal dial strategy otherwise.  The network name is ignored
by the dispatch, as in the source. -/
def btcdDial (c : DialLookupConfig) (_network address : List Char) : Option DialFn :=
  if goHasSuffix address onionSuffix then c.oniondial else c.dial

/-- Embedding of `btcdLookup` (config.go lines 666-671): dispatches to
the configuration's onion lookup strategy when the host ends in
`".onion"`, and to the normal lookup strategy otherwise. -/
def btcdLookup (c : DialLookupConfig) (host : List Char) : Option LookupFn :=
  if goHasSuffix host onionSuffix then c.onionlookup else c.lookup

/-- The two peer lists of the configuration as they stand between the
file pass and the final command-line pass. -/
structure PeerConfig where
  addPeers : List String
  connectPeers : List String
deriving DecidableEq

/-- Embedding of config.go lines 366-369: when the pre-pass detected
regression-test mode and the add-peer list is non-empty after the file
pass, it is reset to nil.  Nothing touches the connect-only list. -/
def applyRegtestPeerDiscard (preRegressionTest : Bool) (c : PeerConfig) : PeerConfig :=
  if preRegressionTest ∧ c.addPeers.length > 0 then { c with addPeers := [] } else c

/-- The final command-line pass appends its list values to the slices
already holding the file pass's values (go-flags accumulates repeated
list options onto the existing slice). -/
def applyCliPeers (c : PeerConfig) (cliAddPeers cliConnectPeers : List String) : PeerConfig :=
  ⟨c.addPeers ++ cliAddPeers, c.connectPeers ++ cliConnectPeers⟩

/-- The peer lists produced by the pipeline fragment "file pass, then
regression-test discard, then final command-line pass" of `loadConfig`
(config.go lines 349-378). -/
def loadPeerLists (preRegressionTest : Bool)
    (fileAddPeers fileConnectPeers cliAddPeers cliConnectPeers : List String) : PeerConfig :=
  applyCliPeers
    (applyRegtestPeerDiscard preRegressionTest ⟨fileAddPeers, fileConnectPeers⟩)
    cliAddPeers cliConnectPeers

end BtcdConfig

namespace BtcdConfig

/-- C1: for every combination of Proxy, OnionProxy and NoOnion, the
strategy-construction block of `loadConfig` sets the normal and onion
dial/lookup pairs exactly as the spec §4.8 table prescribes (system pair
without a proxy; proxy dial plus Tor-routed lookup via Proxy when a proxy
is set and NoOnion is false; system DNS for the normal lookup when
NoOnion is true; onion pair equal to the normal pair without an onion
proxy, the dedicated onion-proxy pair with one, and the always-erroring
pair whenever NoOnion is true), and no combination leaves any of the four
strategies unset (`none`). -/
theorem setupStrategies_matches_spec
    (proxy proxyUser proxyPass onionProxy onionProxyUser onionProxyPass : String)
    (noOnion : Bool) :
    setupStrategies proxy proxyUser proxyPass onionProxy onionProxyUser onionProxyPass noOnion =
      specStrategies proxy proxyUser proxyPass onionProxy onionProxyUser onionProxyPass noOnion ∧
    (setupStrategies proxy proxyUser proxyPass onionProxy onionProxyUser onionProxyPass
        noOnion).dial.isSome = true ∧
    (setupStrategies proxy proxyUser proxyPass onionProxy onionProxyUser onionProxyPass
        noOnion).lookup.isSome = true ∧
    (setupStrategies proxy proxyUser proxyPass onionProxy onionProxyUser onionProxyPass
        noOnion).oniondial.isSome = true ∧
    (setupStrategies proxy proxyUser proxyPass onionProxy onionProxyUser onionProxyPass
        noOnion).onionlookup.isSome = true := by
  by_cases hp : proxy = "" <;> by_cases ho : onionProxy = "" <;> cases noOnion <;>
    simp [setupStrategies, specStrategies, specNormalDial, specNormalLookup,
      specOnionDial, specOnionLookup, hp, ho]

/-- C7: whenever the merged RPC username or RPC password is empty, the
post-merge step of `loadConfig` forces the disable-RPC flag to true;
when both are non-empty it leaves the configured flag unchanged. -/
theorem applyRPCDisable_spec (rpcUser rpcPass : String) (disableRPC : Bool) :
    (rpcUser = "" ∨ rpcPass = "" → applyRPCDisable rpcUser rpcPass disableRPC = true) ∧
    (rpcUser ≠ "" → rpcPass ≠ "" → applyRPCDisable rpcUser rpcPass disableRPC = disableRPC) := by
  constructor
  · intro h
    simp [applyRPCDisable, h]
  · intro h1 h2
    simp [applyRPCDisable, h1, h2]

/-- Witness for C7 at concrete inputs. -/
theorem applyRPCDisable_spec_witness :
    applyRPCDisable "" "secret" false = true ∧ applyRPCDisable "user" "secret" false = false :=
  ⟨(applyRPCDisable_spec "" "secret" false).1 (Or.inl rfl),
   (applyRPCDisable_spec "user" "secret" false).2 (by decide) (by decide)⟩

/-- C3: the network-selection block of `loadConfig` fails with the
specific mutual-exclusion error exactly when two or three of the three
network flags are true; with zero or one true it succeeds, binding the
matching network profile, all three false binding the main network (and
simnet also forcing DNS seeding off). -/
theorem selectNetwork_spec (t r s d : Bool) :
    (selectNetwork t r s d = Except.error multiNetErrorMsg ↔ 2 ≤ numNets t r s) ∧
    ((∃ sel, selectNetwork t r s d = Except.ok sel) ↔ numNets t r s ≤ 1) ∧
    selectNetwork false false false d = Except.ok ⟨Network.mainNet, d⟩ ∧
    selectNetwork true false false d = Except.ok ⟨Network.testNet3, d⟩ ∧
    selectNetwork false true false d = Except.ok ⟨Network.regressionNet, d⟩ ∧
    selectNetwork false false true d = Except.ok ⟨Network.simNet, true⟩ := by
  cases t <;> cases r <;> cases s <;> cases d <;>
    simp [selectNetwork, numNets]

/-- C2 counterexample: `BlockMinSize = 2`, `BlockPrioritySize = 1`,
`BlockMaxSize = 1000` passes validation untouched (both are below the
maximum, so clamping changes nothing), yet the resulting triple violates
the claimed `BlockMinSize ≤ BlockPrioritySize`: the code never compares
the minimum against the priority size. -/
theorem limitBlockSizes_not_min_le_priority :
    limitBlockSizes 2 1 1000 = Except.ok (2, 1, 1000) ∧ ¬(2 ≤ 1) := by
  constructor
  · rfl
  · decide

/-- C2 (amended): `loadConfig` fails with an error naming both bounds and
the offending value exactly when `BlockMaxSize` lies outside
`[1000, maxBlockPayload - 1000]`; otherwise it succeeds with
`BlockMinSize` and `BlockPrioritySize` each silently clamped down to
`BlockMaxSize` (so each is at most `BlockMaxSize`, but no relation
between the clamped minimum and priority sizes is enforced). -/
theorem limitBlockSizes_spec (mn pr mx : Nat) :
    (mx < blockMaxSizeMin ∨ mx > blockMaxSizeMax →
      limitBlockSizes mn pr mx = Except.error ⟨blockMaxSizeMin, blockMaxSizeMax, mx⟩) ∧
    (blockMaxSizeMin ≤ mx → mx ≤ blockMaxSizeMax →
      limitBlockSizes mn pr mx = Except.ok (min mn mx, min pr mx, mx) ∧
      min mn mx ≤ mx ∧ min pr mx ≤ mx) := by
  constructor
  · intro h
    simp only [limitBlockSizes, if_pos h]
  · intro h1 h2
    have hcond : ¬(mx < blockMaxSizeMin ∨ mx > blockMaxSizeMax) := by omega
    have hmin : ∀ a b : Nat, minUint32 a b = min a b := by
      intro a b
      unfold minUint32
      split <;> omega
    refine ⟨?_, Nat.min_le_right mn mx, Nat.min_le_right pr mx⟩
    simp only [limitBlockSizes, if_neg hcond, hmin]

/-- Witness for C2's amended theorem at concrete inputs: 800000 is out of
bounds and rejected with both bounds and the value; 700000 is in bounds
and the 750000 priority size is clamped down to it. -/
theorem limitBlockSizes_spec_witness :
    limitBlockSizes 0 50000 999500 =
      Except.error ⟨blockMaxSizeMin, blockMaxSizeMax, 999500⟩ ∧
    limitBlockSizes 0 750000 700000 = Except.ok (min 0 700000, min 750000 700000, 700000) :=
  ⟨(limitBlockSizes_spec 0 50000 999500).1 (by decide),
   ((limitBlockSizes_spec 0 750000 700000).2 (by decide) (by decide)).1⟩

/-- C5 counterexample: in regression-test mode, a connect-only list
loaded from the configuration-file pass survives into the final
configuration (here `["5.6.7.8"]` with nothing from the command line),
refuting the claim that every peer list loaded from the file pass is
discarded: config.go lines 366-369 reset only `cfg.AddPeers`. -/
theorem loadPeerLists_keeps_file_connect_peers :
    (loadPeerLists true [] ["5.6.7.8"] [] []).connectPeers = ["5.6.7.8"] ∧
    ["5.6.7.8"] ≠ ([] : List String) := by
  constructor
  · rfl
  · decide

/-- C5 (amended): in regression-test mode only the add-peer list from
the file pass is discarded — the final add-peer list is exactly the
command-line one — while the connect-only list always keeps the file
pass's entries followed by the command line's. -/
theorem loadPeerLists_spec (preRegressionTest : Bool)
    (fileAddPeers fileConnectPeers cliAddPeers cliConnectPeers : List String) :
    (preRegressionTest = true →
      (loadPeerLists preRegressionTest fileAddPeers fileConnectPeers
          cliAddPeers cliConnectPeers).addPeers = cliAddPeers) ∧
    (loadPeerLists preRegressionTest fileAddPeers fileConnectPeers
        cliAddPeers cliConnectPeers).connectPeers = fileConnectPeers ++ cliConnectPeers := by
  constructor
  · intro h
    subst h
    cases fileAddPeers <;>
      simp [loadPeerLists, applyCliPeers, applyRegtestPeerDiscard]
  · cases preRegressionTest <;> cases fileAddPeers <;>
      simp [loadPeerLists, applyCliPeers, applyRegtestPeerDiscard]

/-- Witness for C5's amended theorem: file add-peers are dropped in
regression-test mode while command-line ones survive. -/
theorem loadPeerLists_spec_witness :
    (loadPeerLists true ["1.2.3.4"] [] ["9.9.9.9"] []).addPeers = ["9.9.9.9"] :=
  (loadPeerLists_spec true ["1.2.3.4"] [] ["9.9.9.9"] []).1 rfl

/-- C9 counterexample: with the regression-test flag set and the user
explicitly supplying the config-file flag with exactly the built-in
default path, the file is still skipped — the overlay (which would
rewrite the configuration from 0 to 1) is not applied — refuting the
claim that an explicitly supplied path is always read in those modes:
config.go line 352 compares only the path value. -/
theorem configFilePhase_explicit_default_path_skipped :
    configFilePhase "/home/user/.btcd/btcd.conf"
        ⟨some "/home/user/.btcd/btcd.conf", true, false⟩
        (Except.ok (fun _ => 1)) (0 : Nat) = Except.ok (0, none) ∧
    (0 : Nat) ≠ 1 := by
  constructor
  · rfl
  · decide

/-- C9 (amended): whenever the pre-pass set the regression-test or
simulation-network flag and the effective config-file path equals the
built-in default, the file pass is skipped entirely — whatever the file
system would have answered, the configuration passes through unchanged
and no missing-file warning is recorded; supplying a config-file path
different from the default forces the file to be read even in those
modes. -/
theorem configFilePhase_skip_spec {α : Type} (defaultFile : String) (pre : PreConfig)
    (fileResult : Except ConfigFileError (α → α)) (cfg : α) :
    (pre.regressionTest = true ∨ pre.simNet = true →
      preConfigFile defaultFile pre = defaultFile →
      configFilePhase defaultFile pre fileResult cfg = Except.ok (cfg, none)) ∧
    (∀ p, pre.configFileFlag = some p → p ≠ defaultFile →
      readsConfigFile defaultFile pre = true) := by
  constructor
  · intro hmode hpath
    have hread : readsConfigFile defaultFile pre = false := by
      simp [readsConfigFile, hpath]
      rcases hmode with h | h <;> simp [h]
    simp [configFilePhase, hread]
  · intro p hp hne
    simp [readsConfigFile, preConfigFile, hp, Option.getD, hne]

/-- Witness for C9's amended theorem: a simnet run with the default
config path skips the file (the overlay is not applied, no warning), and
an alternate path is read. -/
theorem configFilePhase_skip_spec_witness :
    configFilePhase "/home/user/.btcd/btcd.conf" ⟨none, false, true⟩
        (Except.ok (fun n => n + 7)) (5 : Nat) = Except.ok (5, none) ∧
    readsConfigFile "/home/user/.btcd/btcd.conf"
        ⟨some "/tmp/alt.conf", false, true⟩ = true :=
  ⟨(configFilePhase_skip_spec "/home/user/.btcd/btcd.conf" ⟨none, false, true⟩
      (Except.ok (fun n => n + 7)) (5 : Nat)).1 (Or.inr rfl) rfl,
   (configFilePhase_skip_spec "/home/user/.btcd/btcd.conf"
      ⟨some "/tmp/alt.conf", false, true⟩
      (Except.ok (fun n : Nat => n)) (0 : Nat)).2 "/tmp/alt.conf" rfl (by decide)⟩

/-- The translated `strings.HasSuffix` answers true exactly when the
string decomposes as some text followed by the suffix. -/
theorem goHasSuffix_iff (s suf : List Char) :
    goHasSuffix s suf = true ↔ ∃ p, s = p ++ suf := by
  unfold goHasSuffix
  constructor
  · intro h
    split at h
    · have hdrop : s.drop (s.length - suf.length) = suf := by
        exact beq_iff_eq.mp h
      have hsuf : suf <:+ s := List.suffix_iff_eq_drop.mpr hdrop.symm
      rcases hsuf with ⟨p, hp⟩
      exact ⟨p, hp.symm⟩
    · cases h
  · rintro ⟨p, rfl⟩
    have hlen : suf.length ≤ (p ++ suf).length := by
      simp
    rw [if_pos hlen]
    have : (p ++ suf).length - suf.length = p.length := by
      simp
    rw [this, List.drop_left]
    exact beq_self_eq_true suf

/-- C6: `btcdDial` invokes the configuration's onion dial strategy
exactly when the destination address ends in the suffix `".onion"`
(i.e. decomposes as some text followed by it), and the normal dial
strategy otherwise; `btcdLookup` likewise invokes the onion lookup
strategy exactly when the hostname ends in `".onion"`, and the normal
lookup strategy otherwise. -/
theorem btcdDial_btcdLookup_dispatch (c : DialLookupConfig)
    (network address host : List Char) :
    ((∃ p, address = p ++ onionSuffix) → btcdDial c network address = c.oniondial) ∧
    (¬(∃ p, address = p ++ onionSuffix) → btcdDial c network address = c.dial) ∧
    ((∃ p, host = p ++ onionSuffix) → btcdLookup c host = c.onionlookup) ∧
    (¬(∃ p, host = p ++ onionSuffix) → btcdLookup c host = c.lookup) := by
  refine ⟨?_, ?_, ?_, ?_⟩
  · intro h
    have := (goHasSuffix_iff address onionSuffix).mpr h
    simp [btcdDial, this]
  · intro h
    have : goHasSuffix address onionSuffix = false := by
      rcases hb : goHasSuffix address onionSuffix with _ | _
      · rfl
      · exact absurd ((goHasSuffix_iff address onionSuffix).mp hb) h
    simp [btcdDial, this]
  · intro h
    have := (goHasSuffix_iff host onionSuffix).mpr h
    simp [btcdLookup, this]
  · intro h
    have : goHasSuffix host onionSuffix = false := by
      rcases hb : goHasSuffix host onionSuffix with _ | _
      · rfl
      · exact absurd ((goHasSuffix_iff host onionSuffix).mp hb) h
    simp [btcdLookup, this]

/-- Witness for C6: with the onion strategies set to the failing
closures and the normal ones to the system pair, dialing
`"xyz.onion"` selects the onion (failing) dialer and looking up
`"host"` selects the system resolver. -/
theorem btcdDial_btcdLookup_dispatch_witness :
    btcdDial ⟨some DialFn.netDial, some LookupFn.netLookupIP,
        some (DialFn.failDial torDisabledMsg), some (LookupFn.failLookup torDisabledMsg)⟩
      "tcp".toList "xyz.onion".toList = some (DialFn.failDial torDisabledMsg) ∧
    btcdLookup ⟨some DialFn.netDial, some LookupFn.netLookupIP,
        some (DialFn.failDial torDisabledMsg), some (LookupFn.failLookup torDisabledMsg)⟩
      "host".toList = some LookupFn.netLookupIP := by
  constructor
  · exact (btcdDial_btcdLookup_dispatch
      ⟨some DialFn.netDial, some LookupFn.netLookupIP,
        some (DialFn.failDial torDisabledMsg), some (LookupFn.failLookup torDisabledMsg)⟩
      "tcp".toList "xyz.onion".toList "host".toList).1 ⟨"xyz".toList, by decide⟩
  · refine (btcdDial_btcdLookup_dispatch
      ⟨some DialFn.netDial, some LookupFn.netLookupIP,
        some (DialFn.failDial torDisabledMsg), some (LookupFn.failLookup torDisabledMsg)⟩
      "tcp".toList "xyz.onion".toList "host".toList).2.2.2 ?_
    rintro ⟨p, hp⟩
    have hlen := congrArg List.length hp
    simp [onionSuffix] at hlen

/-- C10: when the file pass runs, any operating-system path error —
file-not-found, permission denied, or any other — is recorded as the
deferred non-fatal warning and the configuration survives the phase
unchanged, while a non-path parse failure is fatal; moreover the only
errors ever recorded as the deferred warning are path errors. -/
theorem configFilePhase_pathError_spec {α : Type} (defaultFile : String) (pre : PreConfig)
    (msg : String) (cfg : α) :
    (readsConfigFile defaultFile pre = true →
      configFilePhase defaultFile pre (Except.error (ConfigFileError.pathError msg)) cfg =
        Except.ok (cfg, some (ConfigFileError.pathError msg)) ∧
      configFilePhase defaultFile pre (Except.error (ConfigFileError.parseError msg)) cfg =
        Except.error (ConfigFileError.parseError msg)) ∧
    (∀ (e w : ConfigFileError) (x : α),
      configFilePhase defaultFile pre (Except.error e) cfg = Except.ok (x, some w) →
      e.isPathError = true ∧ w = e ∧ x = cfg) := by
  constructor
  · intro hread
    constructor
    · simp [configFilePhase, hread, ConfigFileError.isPathError]
    · simp [configFilePhase, hread, ConfigFileError.isPathError]
  · intro e w x h
    by_cases hread : readsConfigFile defaultFile pre = true
    · cases e with
      | pathError m =>
        simp [configFilePhase, hread, ConfigFileError.isPathError] at h
        exact ⟨rfl, h.2.symm, h.1.symm⟩
      | parseError m =>
        simp [configFilePhase, hread, ConfigFileError.isPathError] at h
    · simp [configFilePhase, hread] at h

/-- The bytewise lexicographic order is total. -/
theorem lexLe_total : ∀ a b : List Char, lexLe a b = true ∨ lexLe b a = true := by
  intro a
  induction a with
  | nil => intro b; left; rfl
  | cons x xs ih =>
    intro b
    cases b with
    | nil => right; rfl
    | cons y ys =>
      rcases lt_trichotomy x y with h | h | h
      · left; simp [lexLe, h]
      · subst h
        rcases ih ys with h' | h'
        · left; simp [lexLe, h']
        · right; simp [lexLe, h']
      · right; simp [lexLe, h]

/-- The bytewise lexicographic order is transitive. -/
theorem lexLe_trans :
    ∀ a b c : List Char, lexLe a b = true → lexLe b c = true → lexLe a c = true := by
  intro a
  induction a with
  | nil => intro b c _ _; rfl
  | cons x xs ih =>
    intro b c h1 h2
    cases b with
    | nil => simp [lexLe] at h1
    | cons y ys =>
      cases c with
      | nil => simp [lexLe] at h2
      | cons z zs =>
        rcases lt_trichotomy x y with hxy | hxy | hxy
        · rcases lt_trichotomy y z with hyz | hyz | hyz
          · simp [lexLe, lt_trans hxy hyz]
          · subst hyz; simp [lexLe, hxy]
          · simp [lexLe, asymm hyz, hyz] at h2
        · subst hxy
          simp only [lexLe, lt_irrefl, if_false] at h1
          rcases lt_trichotomy x z with hxz | hxz | hxz
          · simp [lexLe, hxz]
          · subst hxz
            simp only [lexLe, lt_irrefl, if_false] at h2 ⊢
            exact ih ys zs h1 h2
          · simp [lexLe, asymm hxz, hxz] at h2
        · simp [lexLe, asymm hxy, hxy] at h1

/-- The pair loop succeeds exactly when every pair is individually
accepted. -/
theorem parsePairs_ok_iff (subsystemNames : List (List Char)) :
    ∀ L, parsePairs subsystemNames L = Except.ok () ↔
      ∀ pair ∈ L, pairAccepted subsystemNames pair = true := by
  intro L
  induction L with
  | nil => simp [parsePairs]
  | cons pair rest ih =>
    simp only [parsePairs]
    rw [List.forall_mem_cons]
    cases hc : pair.contains '=' with
    | false =>
      simp at hc
      simp [pairAccepted, hc]
    | true =>
      simp at hc
      cases hs : subsystemNames.contains ((splitOnChar '=' pair).getD 0 []) with
      | false =>
        simp at hs
        simp [pairAccepted, hc, hs]
      | true =>
        simp at hs
        cases hv : validLogLevel ((splitOnChar '=' pair).getD 1 []) with
        | false =>
          simp at hv
          simp [pairAccepted, hc, hs, hv]
        | true =>
          simp at hv
          simp [pairAccepted, hc, hs, hv, ih]

/-- Whenever the pair loop reports an unrecognized subsystem, the
enumerated list it carries is the sorted supported-subsystem list. -/
theorem parsePairs_subsystem_error (subsystemNames : List (List Char)) :
    ∀ L sub sup, parsePairs subsystemNames L =
        Except.error (DebugLevelError.invalidSubsystem sub sup) →
      sup = supportedSubsystems subsystemNames := by
  intro L
  induction L with
  | nil => intro sub sup h; simp [parsePairs] at h
  | cons pair rest ih =>
    intro sub sup h
    simp only [parsePairs] at h
    revert h
    cases hc : pair.contains '=' with
    | false => intro h; simp at h
    | true =>
      cases hs : subsystemNames.contains ((splitOnChar '=' pair).getD 0 []) with
      | false =>
        intro h
        simp at h
        exact h.2.symm
      | true =>
        cases hv : validLogLevel ((splitOnChar '=' pair).getD 1 []) with
        | false => intro h; simp at h
        | true =>
          intro h
          simp at h
          exact ih sub sup h

/-- C8 counterexample: with subsystem `"AMGR"` recognized, the string
`"AMGR=info=bogus"` — which is not a comma-separated list of
`subsystem=level` pairs (nor a single level name) — is nonetheless
accepted: the code splits on `'='` and reads only the first two fields,
ignoring the trailing `"=bogus"`.  This refutes the claimed
"succeeds exactly when" characterization. -/
theorem parseAndSetDebugLevels_accepts_malformed_pair :
    parseAndSetDebugLevels ["AMGR".toList] "AMGR=info=bogus".toList = Except.ok () ∧
    specDebugLevelWellFormed ["AMGR".toList] "AMGR=info=bogus".toList = false := by
  refine ⟨by rfl, by decide⟩

/-- C8 (amended): validation succeeds exactly when the string is a
single recognized level name containing neither `','` nor `'='`, or
contains one of them and every comma-piece contains `'='`, names a
recognized subsystem before its first `'='` and a recognized level
between its first and second `'='` (text after a second `'='` is
ignored); whenever validation fails with an unrecognized-subsystem
error, the error carries the supported subsystem names sorted (a sorted
permutation of the subsystem list). -/
theorem parseAndSetDebugLevels_spec (subsystemNames : List (List Char)) (s : List Char) :
    (parseAndSetDebugLevels subsystemNames s = Except.ok () ↔
      ((s.contains ',' = false ∧ s.contains '=' = false ∧ validLogLevel s = true) ∨
       ((s.contains ',' = true ∨ s.contains '=' = true) ∧
         ∀ pair ∈ splitOnChar ',' s, pairAccepted subsystemNames pair = true))) ∧
    (∀ sub sup, parseAndSetDebugLevels subsystemNames s =
        Except.error (DebugLevelError.invalidSubsystem sub sup) →
      sup = supportedSubsystems subsystemNames) ∧
    List.Sorted LexLeP (supportedSubsystems subsystemNames) ∧
    List.Perm (supportedSubsystems subsystemNames) subsystemNames := by
  haveI : IsTotal (List Char) LexLeP := ⟨fun a b => lexLe_total a b⟩
  haveI : IsTrans (List Char) LexLeP := ⟨fun a b c => lexLe_trans a b c⟩
  refine ⟨?_, ?_, List.sorted_insertionSort LexLeP subsystemNames,
    List.perm_insertionSort LexLeP subsystemNames⟩
  · simp only [parseAndSetDebugLevels]
    cases hc : s.contains ',' with
    | false =>
      cases he : s.contains '=' with
      | false =>
        cases hv : validLogLevel s with
        | false => simp [hv]
        | true => simp [hv]
      | true => simp [parsePairs_ok_iff]
    | true => simp [parsePairs_ok_iff]
  · intro sub sup h
    simp only [parseAndSetDebugLevels] at h
    revert h
    cases hc : s.contains ',' with
    | false =>
      cases he : s.contains '=' with
      | false =>
        cases hv : validLogLevel s with
        | false => intro h; simp at h
        | true => intro h; simp at h
      | true =>
        intro h
        simp at h
        exact parsePairs_subsystem_error subsystemNames _ sub sup h
    | true =>
      intro h
      simp at h
      exact parsePairs_subsystem_error subsystemNames _ sub sup h

/-- Witness for C8's amended theorem: a two-pair list over recognized
subsystems is accepted, and the sorted supported list is exactly what an
unrecognized-subsystem error enumerates. -/
theorem parseAndSetDebugLevels_spec_witness :
    parseAndSetDebugLevels ["PEER".toList, "AMGR".toList]
      "AMGR=trace,PEER=info".toList = Except.ok () ∧
    ["AMGR".toList, "PEER".toList] =
      supportedSubsystems ["PEER".toList, "AMGR".toList] :=
  ⟨((parseAndSetDebugLevels_spec ["PEER".toList, "AMGR".toList]
        "AMGR=trace,PEER=info".toList).1).mpr (Or.inr ⟨Or.inl (by decide), by decide⟩),
   (parseAndSetDebugLevels_spec ["PEER".toList, "AMGR".toList]
        "BOGUS=info".toList).2.1 "BOGUS".toList ["AMGR".toList, "PEER".toList] (by rfl)⟩

/-- Membership in the dedup loop: the kept addresses are exactly the
input addresses not already seen. -/
theorem mem_rmdupAux (x : List Char) :
    ∀ (l seen : List (List Char)), x ∈ rmdupAux seen l ↔ x ∈ l ∧ x ∉ seen := by
  intro l
  induction l with
  | nil => intro seen; simp [rmdupAux]
  | cons a t ih =>
    intro seen
    by_cases ha : a ∈ seen
    · by_cases hx : x = a
      · subst hx
        simp [rmdupAux, ha, ih]
      · simp [rmdupAux, ha, ih, hx]
    · by_cases hx : x = a
      · subst hx
        simp [rmdupAux, ha, ih]
      · simp [rmdupAux, ha, ih, hx]

/-- The dedup loop returns a sublist of its input: order is preserved. -/
theorem rmdupAux_sublist :
    ∀ (l seen : List (List Char)), List.Sublist (rmdupAux seen l) l := by
  intro l
  induction l with
  | nil => intro seen; simp [rmdupAux]
  | cons a t ih =>
    intro seen
    by_cases ha : a ∈ seen
    · simpa [rmdupAux, ha] using (ih seen).cons a
    · simpa [rmdupAux, ha] using (ih (a :: seen)).cons₂ a

/-- The dedup loop never emits an address twice. -/
theorem nodup_rmdupAux :
    ∀ (l seen : List (List Char)), (rmdupAux seen l).Nodup := by
  intro l
  induction l with
  | nil => intro seen; simp [rmdupAux]
  | cons a t ih =>
    intro seen
    by_cases ha : a ∈ seen
    · simpa [rmdupAux, ha] using ih seen
    · have hnot : a ∉ rmdupAux (a :: seen) t := by
        intro hmem
        exact ((mem_rmdupAux a t (a :: seen)).mp hmem).2 (List.mem_cons_self a seen)
      simpa [rmdupAux, ha, List.nodup_cons, hnot] using ih (a :: seen)

/-- The dedup loop leaves an already-duplicate-free list untouched. -/
theorem rmdupAux_eq_self :
    ∀ (l seen : List (List Char)), l.Nodup → (∀ x ∈ l, x ∉ seen) →
      rmdupAux seen l = l := by
  intro l
  induction l with
  | nil => intro seen _ _; simp [rmdupAux]
  | cons a t ih =>
    intro seen hnd hout
    have ha : a ∉ seen := hout a (List.mem_cons_self a t)
    have hnd' := (List.nodup_cons.mp hnd)
    have hout' : ∀ x ∈ t, x ∉ a :: seen := by
      intro x hx
      simp only [List.mem_cons, not_or]
      exact ⟨fun he => hnd'.1 (he ▸ hx), hout x (List.mem_cons_of_mem a hx)⟩
    simp [rmdupAux, ha, ih (a :: seen) hnd'.2 hout']

/-- Unfolding equation for `keepFirst` on a cons. -/
theorem keepFirst_cons (a : List Char) (l : List (List Char)) :
    keepFirst (a :: l) = a :: keepFirst (l.filter (fun x => x ≠ a)) := by
  simp [keepFirst]

/-- The dedup loop computes exactly the spec's first-seen deduplication
of the not-yet-seen input. -/
theorem rmdupAux_eq_keepFirst :
    ∀ (l seen : List (List Char)),
      rmdupAux seen l = keepFirst (l.filter (fun x => x ∉ seen)) := by
  intro l
  induction l with
  | nil => intro seen; simp [rmdupAux, keepFirst]
  | cons a t ih =>
    intro seen
    by_cases ha : a ∈ seen
    · simp [rmdupAux, ha, ih seen, List.filter_cons]
    · have hfil : t.filter (fun x => decide (x ∉ a :: seen)) =
          (t.filter (fun x => decide (x ∉ seen))).filter (fun x => decide (x ≠ a)) := by
        rw [List.filter_filter]
        apply List.filter_congr
        intro x _
        by_cases hxa : x = a
        · subst hxa
          simp
        · by_cases hxs : x ∈ seen <;> simp [hxa, hxs]
      simp only [rmdupAux, if_neg ha, ih (a :: seen), hfil, List.filter_cons]
      simp [keepFirst_cons, ha]

/-- A normalized address that parses as host:port is left unchanged by
further normalization. -/
theorem normalizeAddress_of_isSome (b p : List Char)
    (h : (splitHostPort b).isSome = true) : normalizeAddress b p = b := by
  unfold normalizeAddress
  cases hs : splitHostPort b with
  | none => rw [hs] at h; cases h
  | some pr => rfl

/-- C4 counterexample: for the single-entry list `["[a"]` (an address
with an unmatched opening bracket, no port) and default port `"8333"`,
one normalization yields `["[a:8333"]` — whose entry still fails
`SplitHostPort`, i.e. carries no parseable port — and a second
normalization yields the different list `["[[a:8333]:8333"]`, refuting
idempotence (and the every-entry-carries-a-port property) as claimed for
every list. -/
theorem normalizeAddresses_not_idempotent :
    normalizeAddresses ["[a".toList] "8333".toList = ["[a:8333".toList] ∧
    (splitHostPort "[a:8333".toList).isSome = false ∧
    normalizeAddresses (normalizeAddresses ["[a".toList] "8333".toList) "8333".toList =
      ["[[a:8333]:8333".toList] ∧
    "[[a:8333]:8333".toList ≠ "[a:8333".toList := by
  refine ⟨by rfl, by rfl, by rfl, by decide⟩

/-- C4 (amended): `normalizeAddresses` equals the spec's first-seen
deduplication of the port-normalized entries — so the result has no
duplicate entries and preserves first-seen order (it is a sublist of the
normalized input) — and, provided every normalized entry parses as
host:port (true for ordinary addresses; entries with stray brackets can
fail), every entry of the result carries an explicit port and a second
application with the same default port returns the same list. -/
theorem normalizeAddresses_spec (addrs : List (List Char)) (p : List Char) :
    normalizeAddresses addrs p = keepFirst (addrs.map (fun a => normalizeAddress a p)) ∧
    (normalizeAddresses addrs p).Nodup ∧
    List.Sublist (normalizeAddresses addrs p) (addrs.map (fun a => normalizeAddress a p)) ∧
    ((∀ a ∈ addrs, (splitHostPort (normalizeAddress a p)).isSome = true) →
      (∀ b ∈ normalizeAddresses addrs p, (splitHostPort b).isSome = true) ∧
      normalizeAddresses (normalizeAddresses addrs p) p = normalizeAddresses addrs p) := by
  have hmem : ∀ b ∈ normalizeAddresses addrs p,
      b ∈ addrs.map (fun a => normalizeAddress a p) := by
    intro b hb
    exact ((mem_rmdupAux b (addrs.map (fun a => normalizeAddress a p)) []).mp hb).1
  refine ⟨?_, nodup_rmdupAux _ _, rmdupAux_sublist _ _, ?_⟩
  · unfold normalizeAddresses removeDuplicateAddresses
    rw [rmdupAux_eq_keepFirst]
    congr 1
    simp
  · intro H
    have hports : ∀ b ∈ normalizeAddresses addrs p, (splitHostPort b).isSome = true := by
      intro b hb
      rcases List.mem_map.mp (hmem b hb) with ⟨a, ha, rfl⟩
      exact H a ha
    refine ⟨hports, ?_⟩
    have hmap : (normalizeAddresses addrs p).map (fun a => normalizeAddress a p) =
        normalizeAddresses addrs p := by
      rw [List.map_congr_left (fun b hb => normalizeAddress_of_isSome b p (hports b hb))]
      exact List.map_id _
    show removeDuplicateAddresses _ = _
    rw [hmap]
    exact rmdupAux_eq_self _ [] (nodup_rmdupAux _ _) (by simp)

/-- Witness for C4's amended theorem: a list with a duplicate and a
port-less entry normalizes to a duplicate-free, port-carrying list and
is a fixed point of a second normalization. -/
theorem normalizeAddresses_spec_witness :
    (∀ b ∈ normalizeAddresses ["1.2.3.4".toList, "1.2.3.4:8333".toList, "1.2.3.4".toList]
        "8333".toList, (splitHostPort b).isSome = true) ∧
    normalizeAddresses
        (normalizeAddresses ["1.2.3.4".toList, "1.2.3.4:8333".toList, "1.2.3.4".toList]
          "8333".toList) "8333".toList =
      normalizeAddresses ["1.2.3.4".toList, "1.2.3.4:8333".toList, "1.2.3.4".toList]
        "8333".toList :=
  (normalizeAddresses_spec ["1.2.3.4".toList, "1.2.3.4:8333".toList, "1.2.3.4".toList]
    "8333".toList).2.2.2 (by decide)

/-- Witness for C10 at concrete inputs: a permission-denied path error
is deferred as a warning while a parse error is fatal (main-network run
with the default path, so the file pass runs). -/
theorem configFilePhase_pathError_spec_witness :
    configFilePhase "/home/user/.btcd/btcd.conf" ⟨none, false, false⟩
        (Except.error (ConfigFileError.pathError
          "open /home/user/.btcd/btcd.conf: permission denied")) (3 : Nat) =
      Except.ok (3, some (ConfigFileError.pathError
        "open /home/user/.btcd/btcd.conf: permission denied")) ∧
    configFilePhase "/home/user/.btcd/btcd.conf" ⟨none, false, false⟩
        (Except.error (ConfigFileError.parseError "malformed section header")) (3 : Nat) =
      Except.error (ConfigFileError.parseError "malformed section header") :=
  ⟨((configFilePhase_pathError_spec "/home/user/.btcd/btcd.conf" ⟨none, false, false⟩
      "open /home/user/.btcd/btcd.conf: permission denied" (3 : Nat)).1 rfl).1,
   ((configFilePhase_pathError_spec "/home/user/.btcd/btcd.conf" ⟨none, false, false⟩
      "malformed section header" (3 : Nat)).1 rfl).2⟩

end BtcdConfig
